import Mathlib

/-! # lytics/lifecycle: ShutdownRequest and LifeCycle

A shallow embedding of `shutdownrequest.go` and of the goroutines of
`lifecycle_test.go`, with the Go primitives they use (`sync/atomic` on an
`int32`, one buffered channel) modelled explicitly.

* Sequential view: every exported method is one function on the object.
* Interleaving view: `RequestShutdown` is split at its two shared-memory
  accesses (the compare-and-swap of line 68 and the send of line 70), and a
  run is a list of events, one atomic access each.
* `lifecycle.go` is not among the sources at hand; the tracker is modelled
  from its specification and every such definition says so.
-/

namespace Lifecycle

/-! ## Go primitives -/

/-- Values carried by `chan interface{}`; the package only ever sends `true`. -/
abbrev Iface := Bool

/-- A buffered Go channel: the queued values and the capacity given to `make`.
`sent` and `recvd` are history counters (values ever enqueued / dequeued);
no operation reads them. -/
structure Chan where
  buf : List Iface
  cap : Nat
  sent : Nat
  recvd : Nat
deriving DecidableEq, Repr

/-- The Go expression `make(chan interface{}, n)`. -/
def makeChan (n : Nat) : Chan :=
  { buf := [], cap := n, sent := 0, recvd := 0 }

/-- The Go statement `c <- v` on a buffered channel: enqueues when the buffer
has room; `none` when the buffer is full, i.e. the sender blocks. -/
def Chan.send (c : Chan) (v : Iface) : Option Chan :=
  if c.buf.length < c.cap then
    some { c with buf := c.buf ++ [v], sent := c.sent + 1 }
  else none

/-- The Go expression `<-c`: dequeues the oldest value; `none` when the
buffer is empty, i.e. the receiver finds nothing (and would block). -/
def Chan.recv (c : Chan) : Option (Iface × Chan) :=
  match c.buf with
  | [] => none
  | v :: rest => some (v, { c with buf := rest, recvd := c.recvd + 1 })

/-- The call `atomic.LoadInt32(&x)`. -/
def LoadInt32 (x : Int) : Int := x

/-- The call `atomic.CompareAndSwapInt32(&x, old, new)`: the new content of
`x` and whether the swap happened. -/
def CompareAndSwapInt32 (x old new : Int) : Int × Bool :=
  if x = old then (new, true) else (x, false)

/-- Two's-complement wrap-around of `int32` arithmetic. -/
def wrap32 (x : Int) : Int := (x + 2147483648) % 4294967296 - 2147483648

/-! ## shutdownrequest.go -/

/-- The struct `ShutdownRequest`. -/
structure ShutdownRequest where
  shutdownRequestFlag : Int
  shutdownRequestChan : Chan
deriving DecidableEq, Repr

/-- The constructor `NewShutdownRequest`: zero flag, channel of capacity 1. -/
def NewShutdownRequest : ShutdownRequest :=
  { shutdownRequestFlag := 0, shutdownRequestChan := makeChan 1 }

/-- The method `IsShutdownRequested`. -/
def IsShutdownRequested (this : ShutdownRequest) : Bool :=
  let shouldShutdown := decide (LoadInt32 this.shutdownRequestFlag > 0)
  shouldShutdown

/-- The method `GetShutdownRequestChan`. -/
def GetShutdownRequestChan (this : ShutdownRequest) : Chan :=
  this.shutdownRequestChan

/-- Line 68 of `RequestShutdown`: the compare-and-swap on the flag. Returns
the object after the access and the local `didSwap`. -/
def RequestShutdown_cas (this : ShutdownRequest) : ShutdownRequest × Bool :=
  let r := CompareAndSwapInt32 this.shutdownRequestFlag 0 1
  ({ this with shutdownRequestFlag := r.1 }, r.2)

/-- Line 70 of `RequestShutdown`: `this.shutdownRequestChan <- true`;
`none` when the send blocks. -/
def RequestShutdown_send (this : ShutdownRequest) : Option ShutdownRequest :=
  match this.shutdownRequestChan.send true with
  | some c => some { this with shutdownRequestChan := c }
  | none => none

/-- The method `RequestShutdown`, run without interruption: `some` of the
object on return, `none` when the call blocks on its send. -/
def RequestShutdown (this : ShutdownRequest) : Option ShutdownRequest :=
  let r := RequestShutdown_cas this
  if r.2 then RequestShutdown_send r.1 else some r.1

/-- A receive attempt on `GetShutdownRequestChan()`: the value obtained, if
any, and the object afterwards (unchanged when the channel is empty). -/
def receiveAttempt (this : ShutdownRequest) : Option Iface × ShutdownRequest :=
  match (GetShutdownRequestChan this).recv with
  | some (v, c) => (some v, { this with shutdownRequestChan := c })
  | none => (none, this)

/-! ## Sequential runs: a list of whole operations -/

/-- The operations a client can apply to a shutdown request. -/
inductive Op
  | requestShutdown
  | isShutdownRequested
  | getShutdownRequestChan
  | receive
deriving DecidableEq, Repr

/-- One operation applied to the object; `none` when the operation blocks. -/
def applyOp (o : Op) (s : ShutdownRequest) : Option ShutdownRequest :=
  match o with
  | Op.requestShutdown => RequestShutdown s
  | Op.isShutdownRequested => some s
  | Op.getShutdownRequestChan => some s
  | Op.receive => some (receiveAttempt s).2

/-- A list of operations applied in order. -/
def runOps : List Op → ShutdownRequest → Option ShutdownRequest
  | [], s => some s
  | o :: os, s =>
    match applyOp o s with
    | some s1 => runOps os s1
    | none => none

/-- Whether some `receive` comes after some `requestShutdown` in the list. -/
def requestThenReceive : List Op → Bool
  | [] => false
  | Op.requestShutdown :: os => decide (Op.receive ∈ os)
  | _ :: os => requestThenReceive os

/-! ## Interleaved runs: a list of atomic accesses -/

/-- The shared object together with the number of `RequestShutdown` calls
that are between their compare-and-swap (with `didSwap = true`) and their
send. -/
structure Sys where
  obj : ShutdownRequest
  atSend : Nat
deriving DecidableEq, Repr

/-- The atomic accesses of the threads using one shutdown request. -/
inductive Event
  | callCas
  | callSend
  | receive
  | poll
  | getChan
deriving DecidableEq, Repr

/-- A fresh object and no call in flight. -/
def Sys.init : Sys := { obj := NewShutdownRequest, atSend := 0 }

/-- One atomic access. `callCas`: some thread enters `RequestShutdown` and
executes line 68; when `didSwap` is false the call returns at once.
`callSend`: a call waiting at line 70 executes its send; `none` when no call
is there or when the send blocks. `receive`: a receive attempt. `poll` and
`getChan` read only. -/
def step (e : Event) (s : Sys) : Option Sys :=
  match e with
  | Event.callCas =>
    let r := RequestShutdown_cas s.obj
    some { obj := r.1, atSend := if r.2 then s.atSend + 1 else s.atSend }
  | Event.callSend =>
    if s.atSend = 0 then none
    else
      match RequestShutdown_send s.obj with
      | some o => some { obj := o, atSend := s.atSend - 1 }
      | none => none
  | Event.receive => some { s with obj := (receiveAttempt s.obj).2 }
  | Event.poll => some s
  | Event.getChan => some s

/-- A list of atomic accesses executed in order. -/
def exec : List Event → Sys → Option Sys
  | [], s => some s
  | e :: es, s =>
    match step e s with
    | some s1 => exec es s1
    | none => none

/-! ## lifecycle_test.go: the two goroutines of TestShutdownRequest -/

/-- Where the pretend server (lines 40-51) stands: before the loop condition
of line 42, blocked in the `select` of line 43, holding a received `toAdd`
before the `atomic.AddInt32` of line 45, or past the loop. -/
inductive WorkerPc
  | loopCond
  | atSelect
  | atAdd (toAdd : Int)
  | exited
deriving DecidableEq, Repr

/-- Where the test body (lines 61-64) stands: before the compare-and-swap of
`RequestShutdown`, before its send, after its return, after the load of
line 62, after the load of line 64. -/
inductive RequesterPc
  | atCas
  | atSendLine
  | returned
  | loadedRequest
  | loadedComplete
deriving DecidableEq, Repr

/-- The shared memory and the two program counters. `iterations` counts the
loop bodies the server has completed and `iterationsAtReturn` records that
count when `RequestShutdown` returns; no step reads either. The lifecycle
calls of lines 41, 50, 54 and 63 only restrict the order of the steps; the one
restriction kept is that line 64 runs after the server has left its loop. -/
structure TestSys where
  shutdownRequest : ShutdownRequest
  sum : Int
  worker : WorkerPc
  requester : RequesterPc
  sumAfterShutdownRequest : Int
  sumAfterShutdownComplete : Int
  iterations : Nat
  iterationsAtReturn : Nat
deriving DecidableEq, Repr

/-- The atomic steps of the two goroutines. -/
inductive TestEvent
  | workerCond
  | workerWork
  | workerQuit
  | workerAdd
  | requesterCas
  | requesterSend
  | requesterLoadRequest
  | requesterLoadComplete
deriving DecidableEq, Repr

/-- The state when both goroutines start. -/
def TestSys.init : TestSys :=
  { shutdownRequest := NewShutdownRequest, sum := 0,
    worker := WorkerPc.loopCond, requester := RequesterPc.atCas,
    sumAfterShutdownRequest := 0, sumAfterShutdownComplete := 0,
    iterations := 0, iterationsAtReturn := 0 }

/-- One atomic step; `none` when the step is not enabled.
`workerCond` evaluates `!shutdownRequest.IsShutdownRequested()`;
`workerWork` is the case `toAdd := <-onesChan` (the producer offers a 1);
`workerQuit` is the case `<-shutdownRequest.GetShutdownRequestChan()`;
`workerAdd` is `atomic.AddInt32(&sum, int32(toAdd))`;
`requesterCas` and `requesterSend` are the two accesses of
`RequestShutdown`; `requesterLoadRequest` is line 62;
`requesterLoadComplete` is line 64, which `WaitForState(STATE_STOPPED)`
allows only once the server is past its loop. -/
def testStep (e : TestEvent) (s : TestSys) : Option TestSys :=
  match e, s.worker, s.requester with
  | TestEvent.workerCond, WorkerPc.loopCond, _ =>
    if !IsShutdownRequested s.shutdownRequest then
      some { s with worker := WorkerPc.atSelect }
    else some { s with worker := WorkerPc.exited }
  | TestEvent.workerWork, WorkerPc.atSelect, _ =>
    some { s with worker := WorkerPc.atAdd 1 }
  | TestEvent.workerQuit, WorkerPc.atSelect, _ =>
    match (GetShutdownRequestChan s.shutdownRequest).recv with
    | some (_, c) =>
      some { s with shutdownRequest := { s.shutdownRequest with shutdownRequestChan := c },
                    worker := WorkerPc.loopCond, iterations := s.iterations + 1 }
    | none => none
  | TestEvent.workerAdd, WorkerPc.atAdd toAdd, _ =>
    some { s with sum := wrap32 (s.sum + wrap32 toAdd),
                  worker := WorkerPc.loopCond, iterations := s.iterations + 1 }
  | TestEvent.requesterCas, _, RequesterPc.atCas =>
    let r := RequestShutdown_cas s.shutdownRequest
    if r.2 then some { s with shutdownRequest := r.1, requester := RequesterPc.atSendLine }
    else some { s with shutdownRequest := r.1, requester := RequesterPc.returned,
                       iterationsAtReturn := s.iterations }
  | TestEvent.requesterSend, _, RequesterPc.atSendLine =>
    match RequestShutdown_send s.shutdownRequest with
    | some o => some { s with shutdownRequest := o, requester := RequesterPc.returned,
                              iterationsAtReturn := s.iterations }
    | none => none
  | TestEvent.requesterLoadRequest, _, RequesterPc.returned =>
    some { s with sumAfterShutdownRequest := LoadInt32 s.sum,
                  requester := RequesterPc.loadedRequest }
  | TestEvent.requesterLoadComplete, WorkerPc.exited, RequesterPc.loadedRequest =>
    some { s with sumAfterShutdownComplete := LoadInt32 s.sum,
                  requester := RequesterPc.loadedComplete }
  | _, _, _ => none

/-- A list of atomic steps executed in order. -/
def testExec : List TestEvent → TestSys → Option TestSys
  | [], s => some s
  | e :: es, s =>
    match testStep e s with
    | some s1 => testExec es s1
    | none => none

/-- Line 66: `sumAfterShutdownComplete - sumAfterShutdownRequest` in `int32`. -/
def reqsWhileShuttingDown (s : TestSys) : Int :=
  wrap32 (s.sumAfterShutdownComplete - s.sumAfterShutdownRequest)

/-! ## LifeCycle -/

/-- Modelled from the spec: the type of lifecycle states (its declaration, in
lifecycle.go, is not among the sources). An open-ended label set; the tests
use `STATE_NEW`, `STATE_RUNNING` and `STATE_STOPPED`. -/
inductive LifeCycleState
  | STATE_NEW
  | STATE_RUNNING
  | STATE_STOPPED
  | other (label : Nat)
deriving DecidableEq, Repr

/-- Modelled from the spec: the progress of one `WaitForState` call: blocked
as a registered waiter, woken by a transition and about to look at the state
again, or returned with a value. -/
inductive WaitStatus
  | blocked
  | woken
  | returned (v : LifeCycleState)
deriving DecidableEq, Repr

/-- Modelled from the spec: a caller of `WaitForState`, tagged with its
target state. -/
structure Waiter where
  target : LifeCycleState
  status : WaitStatus
deriving DecidableEq, Repr

/-- Modelled from the spec: the tracker (lifecycle.go is not among the
sources): the current state and the `WaitForState` calls made so far. -/
structure LifeCycle where
  state : LifeCycleState
  waiters : List Waiter
deriving DecidableEq, Repr

/-- Modelled from the spec: `NewLifeCycle` (missing from the sources); a
fresh tracker is in the initial state and has no waiter. -/
def NewLifeCycle : LifeCycle :=
  { state := LifeCycleState.STATE_NEW, waiters := [] }

/-- Modelled from the spec: `GetState` (missing from the sources), a
non-blocking snapshot of the state. -/
def GetState (this : LifeCycle) : LifeCycleState := this.state

/-- Modelled from the spec: the wake-up a transition gives to one waiter:
a blocked caller becomes woken, whatever its target. -/
def Waiter.wake (w : Waiter) : Waiter :=
  match w.status with
  | WaitStatus.blocked => { w with status := WaitStatus.woken }
  | _ => w

/-- Modelled from the spec: `Transition` (missing from the sources): sets
the state unconditionally and wakes every blocked waiter, as one step. -/
def Transition (newState : LifeCycleState) (this : LifeCycle) : LifeCycle :=
  { state := newState, waiters := this.waiters.map Waiter.wake }

/-- Modelled from the spec: the check a `WaitForState` caller makes, at its
call and after each wake-up: return the state when it equals the target,
block otherwise. -/
def WaitForState_check (this : LifeCycle) (target : LifeCycleState) : WaitStatus :=
  if GetState this = target then WaitStatus.returned (GetState this)
  else WaitStatus.blocked

/-- Modelled from the spec: the start of a `WaitForState` call (missing from
the sources): check and registration in one step. -/
def WaitForState_call (target : LifeCycleState) (this : LifeCycle) : LifeCycle :=
  { this with
    waiters := this.waiters ++ [{ target := target, status := WaitForState_check this target }] }

/-- Modelled from the spec: a woken `WaitForState` caller (the one numbered
`i`) runs again; `none` when that caller is not woken. -/
def WaitForState_resume (i : Nat) (this : LifeCycle) : Option LifeCycle :=
  match this.waiters[i]? with
  | some w =>
    if w.status = WaitStatus.woken then
      some { this with
             waiters := this.waiters.set i { w with status := WaitForState_check this w.target } }
    else none
  | none => none

/-- Modelled from the spec: the atomic steps of the threads using one
tracker. -/
inductive LcEvent
  | transition (newState : LifeCycleState)
  | waitForState (target : LifeCycleState)
  | resume (i : Nat)
  | getState
deriving DecidableEq, Repr

/-- Modelled from the spec: one atomic step on the tracker. -/
def lcStep (e : LcEvent) (lc : LifeCycle) : Option LifeCycle :=
  match e with
  | LcEvent.transition s => some (Transition s lc)
  | LcEvent.waitForState t => some (WaitForState_call t lc)
  | LcEvent.resume i => WaitForState_resume i lc
  | LcEvent.getState => some lc

/-- Modelled from the spec: a list of atomic steps executed in order. -/
def lcExec : List LcEvent → LifeCycle → Option LifeCycle
  | [], lc => some lc
  | e :: es, lc =>
    match lcStep e lc with
    | some lc1 => lcExec es lc1
    | none => none

/-- Modelled from the spec: the status of the `WaitForState` call numbered
`i`, if there is one. -/
def waitStatus (lc : LifeCycle) (i : Nat) : Option WaitStatus :=
  (lc.waiters[i]?).map Waiter.status

/-- Whether a `WaitForState` call has returned. -/
def WaitStatus.hasReturned : WaitStatus → Bool
  | WaitStatus.returned _ => true
  | _ => false

/-! ## The states the proofs go through -/

/-- The object once the request is made and the notification is queued. -/
def queuedState : ShutdownRequest :=
  { shutdownRequestFlag := 1,
    shutdownRequestChan := { buf := [true], cap := 1, sent := 1, recvd := 0 } }

/-- The object once the notification has been received. -/
def takenState : ShutdownRequest :=
  { shutdownRequestFlag := 1,
    shutdownRequestChan := { buf := [], cap := 1, sent := 1, recvd := 1 } }

/-- The object between the compare-and-swap and the send of the first call. -/
def flippedState : ShutdownRequest :=
  { shutdownRequestFlag := 1,
    shutdownRequestChan := { buf := [], cap := 1, sent := 0, recvd := 0 } }

/-- The four states an interleaved run can be in. -/
def SysInv (s : Sys) : Prop :=
  s = Sys.init ∨ s = { obj := flippedState, atSend := 1 } ∨
  s = { obj := queuedState, atSend := 0 } ∨ s = { obj := takenState, atSend := 0 }

instance : DecidablePred SysInv := fun s => by
  unfold SysInv
  infer_instance

/-- The requester is past the return of `RequestShutdown`. -/
def RequesterPc.afterReturn : RequesterPc → Bool
  | RequesterPc.atCas => false
  | RequesterPc.atSendLine => false
  | _ => true

/-- The requester is past the load of line 62. -/
def RequesterPc.afterLoad : RequesterPc → Bool
  | RequesterPc.loadedRequest => true
  | RequesterPc.loadedComplete => true
  | _ => false

/-- The server is between two loop bodies or past the loop. -/
def WorkerPc.betweenBodies : WorkerPc → Bool
  | WorkerPc.loopCond => true
  | WorkerPc.exited => true
  | _ => false

/-- What every state of the two goroutines satisfies. -/
def TestInv (s : TestSys) : Prop :=
  (s.requester = RequesterPc.atCas → s.shutdownRequest.shutdownRequestFlag = 0) ∧
  (s.requester ≠ RequesterPc.atCas → s.shutdownRequest.shutdownRequestFlag = 1) ∧
  (∀ t, s.worker = WorkerPc.atAdd t → t = 1) ∧
  (-2147483648 ≤ s.sum ∧ s.sum < 2147483648) ∧
  (-2147483648 ≤ s.sumAfterShutdownRequest ∧ s.sumAfterShutdownRequest < 2147483648) ∧
  (s.requester.afterReturn = true →
    s.iterationsAtReturn ≤ s.iterations ∧ s.iterations ≤ s.iterationsAtReturn + 1 ∧
    (s.iterations = s.iterationsAtReturn + 1 → s.worker.betweenBodies = true)) ∧
  (s.requester.afterLoad = true →
    s.sum = s.sumAfterShutdownRequest ∨
    (s.sum = wrap32 (s.sumAfterShutdownRequest + 1) ∧ s.worker.betweenBodies = true)) ∧
  (s.requester = RequesterPc.loadedComplete →
    s.worker = WorkerPc.exited ∧ s.sumAfterShutdownComplete = s.sum)

/-- Every returned `WaitForState` call holds its own target as value. -/
def ReturnedTarget (lc : LifeCycle) : Prop :=
  ∀ w ∈ lc.waiters, ∀ v, w.status = WaitStatus.returned v → v = w.target

/-- The state differs from `target` and the call numbered `n`, which waits
for `target`, has not returned. -/
def StillWaiting (lc : LifeCycle) (n : Nat) (target : LifeCycleState) : Prop :=
  GetState lc ≠ target ∧
  ∃ w, lc.waiters[n]? = some w ∧ w.target = target ∧ w.status.hasReturned = false

/-- The interleaving in which the server takes one work item while the request
is being made. -/
def testRun : List TestEvent :=
  [TestEvent.workerCond, TestEvent.requesterCas, TestEvent.requesterSend,
   TestEvent.workerWork, TestEvent.requesterLoadRequest, TestEvent.workerAdd,
   TestEvent.workerCond, TestEvent.requesterLoadComplete]

/-- The state at the end of `testRun`. -/
def testRunEnd : TestSys :=
  { shutdownRequest := queuedState, sum := 1,
    worker := WorkerPc.exited, requester := RequesterPc.loadedComplete,
    sumAfterShutdownRequest := 0, sumAfterShutdownComplete := 1,
    iterations := 1, iterationsAtReturn := 0 }

/-! ## Sequential runs -/

theorem applyOp_takenState (o : Op) : applyOp o takenState = some takenState := by
  cases o <;> rfl

theorem runOps_takenState (ops : List Op) : runOps ops takenState = some takenState := by
  induction ops with
  | nil => rfl
  | cons o os ih => simp [runOps, applyOp_takenState, ih]

theorem runOps_queuedState (ops : List Op) :
    runOps ops queuedState = some (if Op.receive ∈ ops then takenState else queuedState) := by
  induction ops with
  | nil => rfl
  | cons o os ih =>
    cases o with
    | receive =>
      have h : applyOp Op.receive queuedState = some takenState := rfl
      simp [runOps, h, runOps_takenState]
    | requestShutdown =>
      have h : applyOp Op.requestShutdown queuedState = some queuedState := rfl
      simp [runOps, h, ih]
    | isShutdownRequested =>
      have h : applyOp Op.isShutdownRequested queuedState = some queuedState := rfl
      simp [runOps, h, ih]
    | getShutdownRequestChan =>
      have h : applyOp Op.getShutdownRequestChan queuedState = some queuedState := rfl
      simp [runOps, h, ih]

theorem requestThenReceive_imp (ops : List Op) (h : requestThenReceive ops = true) :
    Op.requestShutdown ∈ ops := by
  induction ops with
  | nil => simp [requestThenReceive] at h
  | cons o os ih =>
    cases o with
    | requestShutdown => simp
    | receive => simp only [requestThenReceive] at h; simp [ih h]
    | isShutdownRequested => simp only [requestThenReceive] at h; simp [ih h]
    | getShutdownRequestChan => simp only [requestThenReceive] at h; simp [ih h]

theorem runOps_fresh (ops : List Op) :
    runOps ops NewShutdownRequest =
      some (if requestThenReceive ops = true then takenState
            else if Op.requestShutdown ∈ ops then queuedState else NewShutdownRequest) := by
  induction ops with
  | nil => rfl
  | cons o os ih =>
    cases o with
    | requestShutdown =>
      have h : applyOp Op.requestShutdown NewShutdownRequest = some queuedState := rfl
      simp [runOps, h, runOps_queuedState, requestThenReceive]
    | receive =>
      have h : applyOp Op.receive NewShutdownRequest = some NewShutdownRequest := rfl
      simp [runOps, h, ih, requestThenReceive]
    | isShutdownRequested =>
      have h : applyOp Op.isShutdownRequested NewShutdownRequest = some NewShutdownRequest := rfl
      simp [runOps, h, ih, requestThenReceive]
    | getShutdownRequestChan =>
      have h : applyOp Op.getShutdownRequestChan NewShutdownRequest = some NewShutdownRequest :=
        rfl
      simp [runOps, h, ih, requestThenReceive]

/-! ## Interleaved runs -/

theorem step_sysInv (e : Event) (s s1 : Sys) (h : SysInv s) (hs : step e s = some s1) :
    SysInv s1 := by
  rcases h with rfl | rfl | rfl | rfl <;> cases e <;> cases hs <;> decide

theorem exec_sysInv (es : List Event) (s s1 : Sys) (h : SysInv s)
    (hs : exec es s = some s1) : SysInv s1 := by
  induction es generalizing s with
  | nil => simp only [exec, Option.some.injEq] at hs; exact hs ▸ h
  | cons e es ih =>
    simp only [exec] at hs
    cases hstep : step e s with
    | none => rw [hstep] at hs; cases hs
    | some s2 =>
      rw [hstep] at hs
      exact ih s2 (step_sysInv e s s2 h hstep) hs

theorem reachable_sysInv (es : List Event) (s : Sys) (hs : exec es Sys.init = some s) :
    SysInv s :=
  exec_sysInv es Sys.init s (Or.inl rfl) hs

theorem step_flag_set (e : Event) (s s1 : Sys) (h : SysInv s)
    (hf : IsShutdownRequested s.obj = true) (hs : step e s = some s1) :
    IsShutdownRequested s1.obj = true := by
  rcases h with rfl | rfl | rfl | rfl <;> cases e <;> cases hs <;>
    first | rfl | exact absurd hf (by decide)

theorem exec_flag_set (es : List Event) (s s1 : Sys) (h : SysInv s)
    (hf : IsShutdownRequested s.obj = true) (hs : exec es s = some s1) :
    IsShutdownRequested s1.obj = true := by
  induction es generalizing s with
  | nil => simp only [exec, Option.some.injEq] at hs; exact hs ▸ hf
  | cons e es ih =>
    simp only [exec] at hs
    cases hstep : step e s with
    | none => rw [hstep] at hs; cases hs
    | some s2 =>
      rw [hstep] at hs
      exact ih s2 (step_sysInv e s s2 h hstep) (step_flag_set e s s2 h hf hstep) hs

/-! ## The shutdown request: results -/

/-- C1: a fresh signal is not requested, every finite sequence of operations on
a fresh signal runs to its end, and `IsShutdownRequested` evaluated after the
sequence is true exactly when the sequence contains a `RequestShutdown`. -/
theorem isShutdownRequested_iff_requested (ops : List Op) :
    IsShutdownRequested NewShutdownRequest = false ∧
    ∃ s, runOps ops NewShutdownRequest = some s ∧
      (IsShutdownRequested s = true ↔ Op.requestShutdown ∈ ops) := by
  refine ⟨rfl, _, runOps_fresh ops, ?_⟩
  by_cases h1 : requestThenReceive ops = true
  · have h2 := requestThenReceive_imp ops h1
    simp only [h1, if_true, h2, iff_true]
    rfl
  · by_cases h2 : Op.requestShutdown ∈ ops
    · simp only [h1, if_false, h2, if_true, iff_true]
      rfl
    · simp only [h1, if_false, h2, iff_false]
      decide

/-- C2: after any sequence of operations on a fresh signal at most one value
has been sent on the channel, and one has been sent exactly when the sequence
contains a `RequestShutdown`; a `RequestShutdown` made after the sequence
returns, and it enqueues exactly one value when it is the first call and
changes nothing when it is a later one. Under interleaved calls too, at most
one value is ever sent. -/
theorem requestShutdown_sends_once (ops : List Op) :
    (∃ s, runOps ops NewShutdownRequest = some s ∧
      s.shutdownRequestChan.sent ≤ 1 ∧
      (s.shutdownRequestChan.sent = 1 ↔ Op.requestShutdown ∈ ops)) ∧
    (∃ s s1, runOps ops NewShutdownRequest = some s ∧ RequestShutdown s = some s1 ∧
      s1.shutdownRequestChan.sent = 1 ∧
      (Op.requestShutdown ∉ ops →
        s.shutdownRequestChan.sent = 0 ∧
        s1.shutdownRequestChan.buf = s.shutdownRequestChan.buf ++ [true]) ∧
      (Op.requestShutdown ∈ ops → s1 = s)) ∧
    (∀ es t, exec es Sys.init = some t → t.obj.shutdownRequestChan.sent ≤ 1) := by
  have hrun := runOps_fresh ops
  have hconc : ∀ es t, exec es Sys.init = some t → t.obj.shutdownRequestChan.sent ≤ 1 := by
    intro es t ht
    rcases reachable_sysInv es t ht with rfl | rfl | rfl | rfl <;> decide
  by_cases h1 : requestThenReceive ops = true
  · have h2 := requestThenReceive_imp ops h1
    simp only [h1, if_true] at hrun
    exact ⟨⟨_, hrun, by decide, by simp only [h2, iff_true]; rfl⟩,
      ⟨_, takenState, hrun, rfl, rfl, fun h => absurd h2 h, fun _ => rfl⟩, hconc⟩
  · by_cases h2 : Op.requestShutdown ∈ ops
    · simp only [h1, if_false, h2, if_true] at hrun
      exact ⟨⟨_, hrun, by decide, by simp only [h2, iff_true]; rfl⟩,
        ⟨_, queuedState, hrun, rfl, rfl, fun h => absurd h2 h, fun _ => rfl⟩, hconc⟩
    · simp only [h1, if_false, h2] at hrun
      exact ⟨⟨_, hrun, by decide, by simp only [h2, iff_false]; decide⟩,
        ⟨_, queuedState, hrun, rfl, rfl, fun _ => ⟨rfl, rfl⟩, fun h => absurd h h2⟩, hconc⟩

/-- C2, at a concrete run: request, receive, request again. -/
theorem requestShutdown_sends_once_witness :
    ∃ s, runOps [Op.requestShutdown, Op.receive, Op.requestShutdown] NewShutdownRequest = some s ∧
      s.shutdownRequestChan.sent = 1 := by
  obtain ⟨s, hs, _, h1⟩ :=
    (requestShutdown_sends_once [Op.requestShutdown, Op.receive, Op.requestShutdown]).1
  exact ⟨s, hs, h1.2 (by decide)⟩

/-- C3: in every state whose flag is set, whether the notification is still
queued or not, `RequestShutdown` returns and leaves the whole object (flag and
channel) unchanged; hence a second call right after a first one that returned
changes nothing. -/
theorem requestShutdown_idempotent (s : ShutdownRequest) :
    (IsShutdownRequested s = true → RequestShutdown s = some s) ∧
    (∀ s1, RequestShutdown s = some s1 → RequestShutdown s1 = some s1) := by
  have key : ∀ t : ShutdownRequest, t.shutdownRequestFlag ≠ 0 → RequestShutdown t = some t := by
    intro t ht
    simp [RequestShutdown, RequestShutdown_cas, CompareAndSwapInt32, ht]
  constructor
  · intro h
    apply key
    simp only [IsShutdownRequested, LoadInt32, decide_eq_true_eq] at h
    omega
  · intro s1 h1
    by_cases h0 : s.shutdownRequestFlag = 0
    · apply key
      simp only [RequestShutdown, RequestShutdown_cas, CompareAndSwapInt32, h0, if_true,
        RequestShutdown_send] at h1
      cases hsend : s.shutdownRequestChan.send true with
      | none => simp [hsend] at h1
      | some c =>
        simp only [hsend, Option.some.injEq] at h1
        rw [← h1]
        show (1 : Int) ≠ 0
        decide
    · rw [key s h0] at h1
      cases h1
      exact key s h0

/-- C3, at the state after one request and at the fresh state. -/
theorem requestShutdown_idempotent_witness :
    IsShutdownRequested queuedState = true ∧ RequestShutdown queuedState = some queuedState ∧
    RequestShutdown NewShutdownRequest = some queuedState :=
  ⟨rfl, (requestShutdown_idempotent queuedState).1 rfl, rfl⟩

/-- C4: in every state an interleaving of `RequestShutdown` calls, receives and
polls reaches, a call that stands at its channel send finds the buffer empty
below capacity 1, so its send is enabled and leaves the notification queued. -/
theorem requestShutdown_never_blocks (es : List Event) (s : Sys)
    (h : exec es Sys.init = some s) (hs : 0 < s.atSend) :
    s.obj.shutdownRequestChan.buf = [] ∧ s.obj.shutdownRequestChan.cap = 1 ∧
    ∃ s1, step Event.callSend s = some s1 ∧ s1.obj.shutdownRequestChan.buf = [true] ∧
      s1.obj.shutdownRequestChan.sent = 1 := by
  rcases reachable_sysInv es s h with rfl | rfl | rfl | rfl
  · exact absurd hs (by decide)
  · exact ⟨rfl, rfl, _, rfl, rfl, rfl⟩
  · exact absurd hs (by decide)
  · exact absurd hs (by decide)

/-- C4, at the state right after the first compare-and-swap. -/
theorem requestShutdown_never_blocks_witness :
    ∃ s, exec [Event.poll, Event.callCas, Event.receive, Event.callCas] Sys.init = some s ∧
      0 < s.atSend ∧ s.obj.shutdownRequestChan.buf = [] ∧
      ∃ s1, step Event.callSend s = some s1 ∧ s1.obj.shutdownRequestChan.buf = [true] :=
  ⟨{ obj := flippedState, atSend := 1 }, rfl, by decide,
    (requestShutdown_never_blocks [Event.poll, Event.callCas, Event.receive, Event.callCas]
      { obj := flippedState, atSend := 1 } rfl (by decide)).1,
    { obj := queuedState, atSend := 0 }, rfl, rfl⟩

/-- C5: after any sequence of operations on a fresh signal the number of
receives that obtained a value is 1 when some receive came after some request
and 0 otherwise, so never more than one; a receive attempted next obtains the
value exactly when a request has been made and no receive was attempted since
the first request, and finds the channel empty in every other case. -/
theorem receive_obtains_at_most_once (ops : List Op) :
    ∃ s, runOps ops NewShutdownRequest = some s ∧
      s.shutdownRequestChan.recvd ≤ 1 ∧
      s.shutdownRequestChan.recvd = (if requestThenReceive ops = true then 1 else 0) ∧
      ((receiveAttempt s).1 = some true ↔
        (Op.requestShutdown ∈ ops ∧ requestThenReceive ops = false)) ∧
      ((receiveAttempt s).1 = none ↔
        (Op.requestShutdown ∉ ops ∨ requestThenReceive ops = true)) := by
  refine ⟨_, runOps_fresh ops, ?_⟩
  by_cases h1 : requestThenReceive ops = true
  · have h2 := requestThenReceive_imp ops h1
    simp only [h1, if_true, h2]
    decide
  · by_cases h2 : Op.requestShutdown ∈ ops
    · simp only [h1, if_false, h2, if_true]
      decide
    · simp only [h1, if_false, h2]
      decide

/-- C6, refuted as stated: right after the first compare-and-swap a poll is
enabled and sees the flag set while the channel is empty and nothing has been
sent or received. -/
theorem flag_flip_not_atomic_with_enqueue :
    exec [Event.callCas] Sys.init = some { obj := flippedState, atSend := 1 } ∧
    step Event.poll { obj := flippedState, atSend := 1 } =
      some { obj := flippedState, atSend := 1 } ∧
    IsShutdownRequested flippedState = true ∧
    (GetShutdownRequestChan flippedState).buf = [] ∧
    (GetShutdownRequestChan flippedState).sent = 0 ∧
    (GetShutdownRequestChan flippedState).recvd = 0 :=
  ⟨rfl, rfl, rfl, rfl, rfl, rfl⟩

/-- C6, amended: the flag flip and the enqueue are two steps of the one call
that wins the compare-and-swap. In every reachable state at most one call
stands between them, and the flag is seen set with the notification neither
queued nor received exactly while that call stands there; once no call stands
there a set flag comes with a notification that is queued or was received. -/
theorem flag_set_without_notification_iff (es : List Event) (s : Sys)
    (h : exec es Sys.init = some s) :
    s.atSend ≤ 1 ∧
    ((IsShutdownRequested s.obj = true ∧ s.obj.shutdownRequestChan.buf = [] ∧
        s.obj.shutdownRequestChan.recvd = 0) ↔ s.atSend = 1) ∧
    (s.atSend = 0 → IsShutdownRequested s.obj = true →
      s.obj.shutdownRequestChan.buf = [true] ∨ s.obj.shutdownRequestChan.recvd = 1) := by
  rcases reachable_sysInv es s h with rfl | rfl | rfl | rfl <;> decide

/-- C6 amended, at the state after a complete first call. -/
theorem flag_set_without_notification_iff_witness :
    exec [Event.callCas, Event.callSend] Sys.init = some { obj := queuedState, atSend := 0 } ∧
    IsShutdownRequested queuedState = true ∧ queuedState.shutdownRequestChan.buf = [true] :=
  ⟨rfl, rfl,
    ((flag_set_without_notification_iff [Event.callCas, Event.callSend]
      { obj := queuedState, atSend := 0 } rfl).2.2 rfl rfl).resolve_right (by decide)⟩

/-- C10: in every state an interleaving reaches, the one between the
compare-and-swap and the send included, the flag is 0 or 1 and it is 1 whenever
the channel holds a value or a value has been received; and after a receive
that obtained the notification every later state has `IsShutdownRequested`
true. -/
theorem flag_set_when_notified (es : List Event) (s : Sys)
    (h : exec es Sys.init = some s) :
    (s.obj.shutdownRequestFlag = 0 ∨ s.obj.shutdownRequestFlag = 1) ∧
    ((s.obj.shutdownRequestChan.buf ≠ [] ∨ 0 < s.obj.shutdownRequestChan.recvd) →
      s.obj.shutdownRequestFlag = 1 ∧ IsShutdownRequested s.obj = true) ∧
    (∀ v, (receiveAttempt s.obj).1 = some v →
      ∀ es1 s1, exec (Event.receive :: es1) s = some s1 →
        IsShutdownRequested s1.obj = true) := by
  refine ⟨?_, ?_, ?_⟩
  · rcases reachable_sysInv es s h with rfl | rfl | rfl | rfl <;> decide
  · rcases reachable_sysInv es s h with rfl | rfl | rfl | rfl <;> decide
  · intro v hv es1 s1 h1
    rcases reachable_sysInv es s h with rfl | rfl | rfl | rfl
    · cases hv
    · cases hv
    · exact exec_flag_set es1 { obj := takenState, atSend := 0 } s1 (by decide) rfl h1
    · cases hv

/-- C10, at the state after a complete call and a receive. -/
theorem flag_set_when_notified_witness :
    exec [Event.callCas, Event.callSend, Event.receive] Sys.init =
      some { obj := takenState, atSend := 0 } ∧
    takenState.shutdownRequestFlag = 1 ∧ IsShutdownRequested takenState = true :=
  ⟨rfl,
    (flag_set_when_notified [Event.callCas, Event.callSend, Event.receive]
      { obj := takenState, atSend := 0 } rfl).2.1 (Or.inr (by decide))⟩

/-! ## The server loop of TestShutdownRequest -/

theorem testStep_inv (e : TestEvent) (s s1 : TestSys) (h : TestInv s)
    (hs : testStep e s = some s1) : TestInv s1 := by
  obtain ⟨⟨flag, ch⟩, sum, w, r, c1, c2, it, itr⟩ := s
  rcases hsend : ch.send true with _ | cs <;> rcases hrecv : ch.recv with _ | ⟨v, cr⟩ <;>
    cases e <;> cases w <;> cases r <;>
    simp only [testStep, IsShutdownRequested, LoadInt32, RequestShutdown_cas,
      RequestShutdown_send, CompareAndSwapInt32, GetShutdownRequestChan, hsend, hrecv] at hs
  all_goals (try split at hs)
  all_goals (try cases hs)
  all_goals
    simp only [TestInv, RequesterPc.afterReturn, RequesterPc.afterLoad, WorkerPc.betweenBodies,
      wrap32, Bool.not_eq_true', decide_eq_false_iff_not, decide_eq_true_eq, reduceCtorEq,
      WorkerPc.atAdd.injEq, forall_eq', forall_eq, false_implies, true_implies, ne_eq,
      not_true_eq_false, not_false_eq_true, and_true, true_and, implies_true,
      Bool.false_eq_true, and_false, or_false, IsEmpty.forall_iff, true_or, false_and,
      imp_false] at *
  all_goals omega

theorem testInv_init : TestInv TestSys.init := by
  simp [TestInv, TestSys.init, NewShutdownRequest, RequesterPc.afterReturn,
    RequesterPc.afterLoad]

theorem testExec_inv (es : List TestEvent) (s s1 : TestSys) (h : TestInv s)
    (hs : testExec es s = some s1) : TestInv s1 := by
  induction es generalizing s with
  | nil => simp only [testExec, Option.some.injEq] at hs; exact hs ▸ h
  | cons e es ih =>
    simp only [testExec] at hs
    cases hstep : testStep e s with
    | none => rw [hstep] at hs; cases hs
    | some s2 =>
      rw [hstep] at hs
      exact ih s2 (testStep_inv e s s2 h hstep) hs

/-- C7: in every state the server loop and the requester reach under any
interleaving, once `RequestShutdown` has returned the server has completed at
most one more loop body than at the return; once `sumAfterShutdownRequest` is
loaded the counter exceeds it by at most 1 (as integers and in `int32`); and
when the requester loads `sumAfterShutdownComplete` the loop has exited and
`reqsWhileShuttingDown` is at most 1, so the test does not fail. -/
theorem worker_stops_within_one_iteration (es : List TestEvent) (s : TestSys)
    (h : testExec es TestSys.init = some s) :
    (s.requester.afterReturn = true →
      s.iterationsAtReturn ≤ s.iterations ∧ s.iterations ≤ s.iterationsAtReturn + 1) ∧
    (s.requester.afterLoad = true →
      s.sum - s.sumAfterShutdownRequest ≤ 1 ∧
      0 ≤ wrap32 (s.sum - s.sumAfterShutdownRequest) ∧
      wrap32 (s.sum - s.sumAfterShutdownRequest) ≤ 1) ∧
    (s.requester = RequesterPc.loadedComplete →
      s.worker = WorkerPc.exited ∧ s.sumAfterShutdownComplete = s.sum ∧
      s.sumAfterShutdownComplete - s.sumAfterShutdownRequest ≤ 1 ∧
      reqsWhileShuttingDown s ≤ 1) := by
  have hinv := testExec_inv es TestSys.init s testInv_init h
  obtain ⟨_, _, _, hrange, hrange1, hiter, hsum, hdone⟩ := hinv
  have hbound : s.requester.afterLoad = true →
      s.sum - s.sumAfterShutdownRequest ≤ 1 ∧
      0 ≤ wrap32 (s.sum - s.sumAfterShutdownRequest) ∧
      wrap32 (s.sum - s.sumAfterShutdownRequest) ≤ 1 := by
    intro hl
    rcases hsum hl with h1 | ⟨h1, _⟩
    · simp only [wrap32] at h1 ⊢
      omega
    · simp only [wrap32] at h1 ⊢
      omega
  refine ⟨fun hr => ⟨(hiter hr).1, (hiter hr).2.1⟩, hbound, ?_⟩
  intro hc
  obtain ⟨hw, hs2⟩ := hdone hc
  have hl : s.requester.afterLoad = true := by rw [hc]; rfl
  have hb := hbound hl
  refine ⟨hw, hs2, ?_, ?_⟩
  · rw [hs2]; exact hb.1
  · simp only [reqsWhileShuttingDown]
    rw [hs2]; exact hb.2.2

/-- C7, at the run where the server takes one work item while the request is
made: the counter is 0 at the load of line 62 and 1 at the load of line 64. -/
theorem worker_stops_within_one_iteration_witness :
    testExec testRun TestSys.init = some testRunEnd ∧
    testRunEnd.requester = RequesterPc.loadedComplete ∧
    testRunEnd.worker = WorkerPc.exited ∧
    testRunEnd.sumAfterShutdownComplete - testRunEnd.sumAfterShutdownRequest = 1 ∧
    reqsWhileShuttingDown testRunEnd ≤ 1 :=
  ⟨rfl, rfl, rfl, by decide,
    ((worker_stops_within_one_iteration testRun testRunEnd rfl).2.2 rfl).2.2.2⟩

/-! ## The lifecycle tracker -/

theorem wake_target (w : Waiter) : w.wake.target = w.target := by
  cases w with
  | mk t st => cases st <;> rfl

theorem wake_returned (w : Waiter) (v : LifeCycleState)
    (h : w.wake.status = WaitStatus.returned v) : w.status = WaitStatus.returned v := by
  cases w with
  | mk t st => cases st <;> first | exact h | cases h

theorem wake_hasReturned (w : Waiter) : w.wake.status.hasReturned = w.status.hasReturned := by
  cases w with
  | mk t st => cases st <;> rfl

theorem check_returned (lc : LifeCycle) (t v : LifeCycleState)
    (h : WaitForState_check lc t = WaitStatus.returned v) : v = t := by
  unfold WaitForState_check at h
  split at h
  · rename_i heq
    cases h
    exact heq
  · cases h

theorem check_blocked (lc : LifeCycle) (t : LifeCycleState) (h : GetState lc ≠ t) :
    WaitForState_check lc t = WaitStatus.blocked := by
  simp [WaitForState_check, h]

theorem lcStep_returnedTarget (e : LcEvent) (lc lc1 : LifeCycle) (h : ReturnedTarget lc)
    (hs : lcStep e lc = some lc1) : ReturnedTarget lc1 := by
  cases e with
  | transition s =>
    cases hs
    intro w hw v hv
    obtain ⟨w0, hw0, rfl⟩ := List.mem_map.1 hw
    rw [wake_target]
    exact h w0 hw0 v (wake_returned w0 v hv)
  | waitForState t =>
    cases hs
    intro w hw v hv
    rcases List.mem_append.1 hw with hw | hw
    · exact h w hw v hv
    · rw [List.mem_singleton] at hw
      subst hw
      exact check_returned lc t v hv
  | resume i =>
    simp only [lcStep, WaitForState_resume] at hs
    split at hs
    · rename_i w0 hw0
      split at hs
      · cases hs
        intro w hw v hv
        rcases List.mem_or_eq_of_mem_set hw with hw | hw
        · exact h w hw v hv
        · subst hw
          exact check_returned lc w0.target v hv
      · cases hs
    · cases hs
  | getState =>
    cases hs
    exact h

theorem lcExec_returnedTarget (es : List LcEvent) (lc lc1 : LifeCycle) (h : ReturnedTarget lc)
    (hs : lcExec es lc = some lc1) : ReturnedTarget lc1 := by
  induction es generalizing lc with
  | nil => simp only [lcExec, Option.some.injEq] at hs; exact hs ▸ h
  | cons e es ih =>
    simp only [lcExec] at hs
    cases hstep : lcStep e lc with
    | none => rw [hstep] at hs; cases hs
    | some lc2 =>
      rw [hstep] at hs
      exact ih lc2 (lcStep_returnedTarget e lc lc2 h hstep) hs

theorem lcStep_stillWaiting (e : LcEvent) (lc lc1 : LifeCycle) (n : Nat)
    (target : LifeCycleState) (h : StillWaiting lc n target)
    (he : e ≠ LcEvent.transition target) (hs : lcStep e lc = some lc1) :
    StillWaiting lc1 n target := by
  obtain ⟨hne, w, hw, ht, hst⟩ := h
  cases e with
  | transition s =>
    cases hs
    refine ⟨fun hh => he (by rw [← hh]; rfl), w.wake, ?_, ?_, ?_⟩
    · simp [Transition, hw]
    · rw [wake_target]; exact ht
    · rw [wake_hasReturned]; exact hst
  | waitForState t =>
    cases hs
    refine ⟨hne, w, ?_, ht, hst⟩
    have hlt : n < lc.waiters.length := by
      rcases List.getElem?_eq_some.1 hw with ⟨hlt, _⟩
      exact hlt
    simp only [WaitForState_call]
    rw [List.getElem?_append_left hlt]
    exact hw
  | resume i =>
    simp only [lcStep, WaitForState_resume] at hs
    split at hs
    · rename_i w0 hw0
      split at hs
      · cases hs
        refine ⟨hne, ?_⟩
        by_cases hin : i = n
        · subst hin
          rw [hw] at hw0
          cases hw0
          have hlt : i < lc.waiters.length := by
            rcases List.getElem?_eq_some.1 hw with ⟨hlt, _⟩
            exact hlt
          refine ⟨_, List.getElem?_set_self hlt, ht, ?_⟩
          rw [check_blocked lc w.target (by rw [ht]; exact hne)]
          rfl
        · refine ⟨w, ?_, ht, hst⟩
          simp only []
          rw [List.getElem?_set_ne hin]
          exact hw
      · cases hs
    · cases hs
  | getState =>
    cases hs
    exact ⟨hne, w, hw, ht, hst⟩

theorem lcExec_stillWaiting (es : List LcEvent) (lc lc1 : LifeCycle) (n : Nat)
    (target : LifeCycleState) (h : StillWaiting lc n target)
    (he : LcEvent.transition target ∉ es) (hs : lcExec es lc = some lc1) :
    StillWaiting lc1 n target := by
  induction es generalizing lc with
  | nil => simp only [lcExec, Option.some.injEq] at hs; exact hs ▸ h
  | cons e es ih =>
    simp only [lcExec] at hs
    simp only [List.mem_cons, not_or] at he
    cases hstep : lcStep e lc with
    | none => rw [hstep] at hs; cases hs
    | some lc2 =>
      rw [hstep] at hs
      exact ih lc2 (lcStep_stillWaiting e lc lc2 n target h (fun hh => he.1 hh.symm) hstep)
        he.2 hs

theorem call_stillWaiting (lc : LifeCycle) (target : LifeCycleState)
    (h : GetState lc ≠ target) :
    StillWaiting (WaitForState_call target lc) lc.waiters.length target := by
  refine ⟨h, _, List.getElem?_concat_length _ _, rfl, ?_⟩
  simp only [check_blocked lc target h]
  rfl

theorem wake_woken (w : Waiter) (h : w.status.hasReturned = false) :
    w.wake.status = WaitStatus.woken := by
  cases w with
  | mk t st => cases st <;> first | rfl | cases h

theorem transition_then_resume (lc : LifeCycle) (i : Nat) (w : Waiter)
    (hw : lc.waiters[i]? = some w) (hst : w.status.hasReturned = false) :
    ∃ lc2, lcExec [LcEvent.transition w.target, LcEvent.resume i] lc = some lc2 ∧
      waitStatus lc2 i = some (WaitStatus.returned w.target) ∧ GetState lc2 = w.target := by
  have hlt : i < lc.waiters.length := by
    rcases List.getElem?_eq_some.1 hw with ⟨hlt, _⟩
    exact hlt
  have h1 : (Transition w.target lc).waiters[i]? = some w.wake := by
    simp [Transition, hw]
  have hchk : WaitForState_check (Transition w.target lc) w.wake.target =
      WaitStatus.returned w.target := by
    rw [wake_target]
    simp [WaitForState_check, GetState, Transition]
  refine ⟨{ Transition w.target lc with
            waiters := (Transition w.target lc).waiters.set i
              { w.wake with status := WaitStatus.returned w.target } }, ?_, ?_, rfl⟩
  · simp only [lcExec, lcStep, WaitForState_resume, h1, wake_woken w hst, if_true, hchk]
  · have hlt1 : i < (Transition w.target lc).waiters.length := by
      simp [Transition, hlt]
    simp only [waitStatus, List.getElem?_set_self hlt1, Option.map_some']

/-- C8: a fresh tracker is in `STATE_NEW`; `Transition` is enabled in every
state for every new state, and `GetState` after it yields that state; so after
any sequence of transitions, in any order and with repeats or regressions,
`GetState` yields the last one. -/
theorem getState_after_transition (ss : List LifeCycleState) (s : LifeCycleState)
    (lc : LifeCycle) :
    GetState NewLifeCycle = LifeCycleState.STATE_NEW ∧
    lcStep (LcEvent.transition s) lc = some (Transition s lc) ∧
    GetState (Transition s lc) = s ∧
    ∃ lc1, lcExec ((ss ++ [s]).map LcEvent.transition) lc = some lc1 ∧ GetState lc1 = s := by
  refine ⟨rfl, rfl, rfl, ?_⟩
  induction ss generalizing lc with
  | nil => exact ⟨Transition s lc, rfl, rfl⟩
  | cons a as ih =>
    obtain ⟨lc1, h1, h2⟩ := ih (Transition a lc)
    exact ⟨lc1, h1, h2⟩

/-- C9: in every state reached from a fresh tracker a returned `WaitForState`
call holds its target as value; a call made while the state differs from its
target has not returned as long as no transition to the target has occurred;
a call that has not returned does return its target once a transition to the
target occurs and the caller runs; and on a fresh tracker a wait for
`STATE_STOPPED` is still blocked after the transition to `STATE_RUNNING` and
returns `STATE_STOPPED` after the transition to `STATE_STOPPED`. -/
theorem waitForState_returns_target (es : List LcEvent) (lc : LifeCycle)
    (target : LifeCycleState) :
    (lcExec es NewLifeCycle = some lc →
      ∀ w ∈ lc.waiters, ∀ v, w.status = WaitStatus.returned v → v = w.target) ∧
    (GetState lc ≠ target → LcEvent.transition target ∉ es →
      ∀ lc1, lcExec (LcEvent.waitForState target :: es) lc = some lc1 →
        GetState lc1 ≠ target ∧
        ∃ st, waitStatus lc1 lc.waiters.length = some st ∧ st.hasReturned = false) ∧
    (GetState lc = target →
      waitStatus (WaitForState_call target lc) lc.waiters.length =
        some (WaitStatus.returned target)) ∧
    (∀ i w, lc.waiters[i]? = some w → w.status.hasReturned = false →
      ∃ lc2, lcExec [LcEvent.transition w.target, LcEvent.resume i] lc = some lc2 ∧
        waitStatus lc2 i = some (WaitStatus.returned w.target) ∧ GetState lc2 = w.target) ∧
    (∃ lc1 lc2,
      lcExec [LcEvent.waitForState LifeCycleState.STATE_STOPPED,
        LcEvent.transition LifeCycleState.STATE_RUNNING, LcEvent.resume 0] NewLifeCycle =
        some lc1 ∧
      waitStatus lc1 0 = some WaitStatus.blocked ∧
      lcExec [LcEvent.transition LifeCycleState.STATE_STOPPED, LcEvent.resume 0] lc1 =
        some lc2 ∧
      waitStatus lc2 0 = some (WaitStatus.returned LifeCycleState.STATE_STOPPED)) := by
  refine ⟨?_, ?_, ?_, ?_, ?_⟩
  · intro h
    exact lcExec_returnedTarget es NewLifeCycle lc (fun w hw => by cases hw) h
  · intro hne hes lc1 h1
    have h2 : lcExec es (WaitForState_call target lc) = some lc1 := h1
    obtain ⟨hs, w, hw, _, hst⟩ :=
      lcExec_stillWaiting es _ lc1 lc.waiters.length target (call_stillWaiting lc target hne)
        hes h2
    exact ⟨hs, w.status, by simp [waitStatus, hw], hst⟩
  · intro h
    simp [waitStatus, WaitForState_call, WaitForState_check, h]
  · intro i w hw hst
    exact transition_then_resume lc i w hw hst
  · exact ⟨_, _, rfl, rfl, rfl, rfl⟩

/-- C9, on a tracker in `STATE_RUNNING` with a caller waiting for
`STATE_STOPPED` while other transitions and polls happen. -/
theorem waitForState_returns_target_witness :
    GetState (Transition LifeCycleState.STATE_RUNNING NewLifeCycle) ≠
      LifeCycleState.STATE_STOPPED ∧
    ∃ lc1, lcExec [LcEvent.waitForState LifeCycleState.STATE_STOPPED,
        LcEvent.transition LifeCycleState.STATE_NEW, LcEvent.resume 0, LcEvent.getState]
        (Transition LifeCycleState.STATE_RUNNING NewLifeCycle) = some lc1 ∧
      ∃ st, waitStatus lc1 0 = some st ∧ st.hasReturned = false := by
  refine ⟨by decide, _, rfl, ?_⟩
  exact ((waitForState_returns_target
    [LcEvent.transition LifeCycleState.STATE_NEW, LcEvent.resume 0, LcEvent.getState]
    (Transition LifeCycleState.STATE_RUNNING NewLifeCycle) LifeCycleState.STATE_STOPPED).2.1
    (by decide) (by decide) _ rfl).2

end Lifecycle
